import Mathlib

/-!
Shallow embedding of the remarkable-tui client (src/main.rs) and proofs
about its specified behaviour.

Modelling conventions:
* Strings are Lean `String`s; the character-wise replacement of
  `sanitize_filename` works on `String.data` (a `List Char`).
* Rust's `char::is_alphanumeric` is modelled by `Char.isAlphanum`; all
  characters exercised by the claims are ASCII, where the two agree, and
  every property proved below depends only on the kept characters
  ('.', '-', '_', letters and digits) being kept.
* Filesystem paths handed to the download engine are modelled as lists of
  components under the root (the platform separator is '/', so the two
  `ends_with` tests of the source collapse into one); the empty component
  list stands for the filesystem root, which always exists.
* The asynchronous parts (tokio tasks, the mpsc channel) are modelled by
  explicit `Spawn` values returned by the transitions and by applying
  `handleMessage` to the completion messages a task would send; network
  and filesystem outcomes are supplied as oracle values.
-/

namespace RTui

/-- Character replacement of `sanitize_filename` (src/main.rs line 27):
a character that is not alphanumeric and not '.', '-' or '_' becomes '_'. -/
def replaceChar (c : Char) : Char :=
  if !c.isAlphanum && c != '.' && c != '-' && c != '_' then '_' else c

/-- The characters `sanitize_filename` keeps unchanged. -/
def keepChar (c : Char) : Bool :=
  c.isAlphanum || c == '.' || c == '-' || c == '_'

/-- Character-wise body of Rust's `str::replace` with a single-char
replacement string. -/
def sanChars (l : List Char) : List Char := l.map replaceChar

/-- Rust's `str::ends_with`. -/
def ends_with (s suf : String) : Bool := suf.data.isSuffixOf s.data

/-- `sanitize_filename` from src/main.rs lines 26-33. -/
def sanitize_filename (name : String) (is_folder : Bool) : String :=
  let safe_name := String.mk (sanChars name.data)
  if !is_folder && !(ends_with safe_name ".pdf") then safe_name ++ ".pdf"
  else safe_name

/-- Input-routing state (src/main.rs lines 53-57). -/
inductive InputMode
| Normal
| Uploading
| Downloading
deriving DecidableEq

/-- A listed node (src/main.rs lines 37-45); the runtime serde attributes
are irrelevant to the model. -/
structure Item where
  id : String
  visible_name : String
  item_type : String
deriving DecidableEq

/-- `Item::is_folder` (src/main.rs lines 47-51). -/
def Item.is_folder (it : Item) : Bool := it.item_type == "CollectionType"

/-- Completion messages sent by background tasks (src/main.rs lines 59-64).
Note that `DocumentsFetched` carries only the items: no originating-folder
identifier travels with a listing result. -/
inductive AppMessage
| DocumentsFetched (items : List Item)
| DownloadComplete (name : String) (path : String)
| UploadComplete (name : String)
| Error (msg : String)
deriving DecidableEq

/-- A background task requested via `tokio::spawn`, recorded with the owned
copies of state it captures at spawn time. -/
inductive Spawn
| fetch (guid : Option String)
| downloadTask (item : Item) (dest : String)
| uploadSeq (guid : Option String) (file_path : String)
deriving DecidableEq

/-- The simple local-filesystem oracle used by `confirm_upload`
(`Path::exists` distinguishes nothing beyond presence, but the model keeps
files and directories apart so that claims about "existing local file" can
be stated). -/
structure LocalFs where
  file_paths : List String
  dir_paths : List String
deriving DecidableEq

/-- Rust `Path::exists`: true for an existing file or directory. -/
def LocalFs.existsAt (fs : LocalFs) (p : String) : Bool :=
  fs.file_paths.contains p || fs.dir_paths.contains p

/-- Whether `p` names an existing regular file. -/
def LocalFs.isFileAt (fs : LocalFs) (p : String) : Bool :=
  fs.file_paths.contains p

/-- Rust's `str::trim` (strip whitespace from both ends), implemented
structurally on the character list so it evaluates by kernel reduction. -/
def rust_trim (s : String) : String :=
  String.mk (((s.data.dropWhile Char.isWhitespace).reverse.dropWhile Char.isWhitespace).reverse)

/-- Rust's `str::starts_with` for a string pattern. -/
def starts_with (s pat : String) : Bool := pat.data.isPrefixOf s.data

/-- `expand_path` (src/main.rs lines 66-76); `home` models the `HOME`
environment variable. -/
def expand_path (home : Option String) (path : String) : String :=
  if path = "~" then home.getD "~"
  else if starts_with path "~/" then
    match home with
    | some h => h ++ String.mk (path.data.drop 1)
    | none => path
  else path

/-- The session state (src/main.rs lines 78-88). `state: ListState` is
modelled by its selected index; the HTTP client and channel sender are
runtime handles with no observable state. -/
structure AppLogic where
  items : List Item
  selected : Option Nat
  current_guid : Option String
  history : List (Option String)
  input_mode : InputMode
  input_buffer : String
  status_msg : String
deriving DecidableEq

/-- `AppLogic::new` (src/main.rs lines 91-103). -/
def AppLogic.new : AppLogic :=
  ⟨[], none, none, [], InputMode.Normal, "", "Ready."⟩

/-- `AppLogic::next` (src/main.rs lines 105-112). -/
def AppLogic.next (app : AppLogic) : AppLogic :=
  if app.items.isEmpty then app
  else
    let i := match app.selected with
      | some i => if i ≥ app.items.length - 1 then 0 else i + 1
      | none => 0
    {app with selected := some i}

/-- `AppLogic::previous` (src/main.rs lines 114-121). -/
def AppLogic.previous (app : AppLogic) : AppLogic :=
  if app.items.isEmpty then app
  else
    let i := match app.selected with
      | some i => if i = 0 then app.items.length - 1 else i - 1
      | none => 0
    {app with selected := some i}

/-- `AppLogic::refresh` (src/main.rs lines 123-138): sets the status and
spawns a listing task that captured the current folder identifier. -/
def AppLogic.refresh (app : AppLogic) : AppLogic × List Spawn :=
  ({app with status_msg := "Loading..."}, [Spawn.fetch app.current_guid])

/-- `AppLogic::enter` (src/main.rs lines 140-151). -/
def AppLogic.enter (app : AppLogic) : AppLogic × List Spawn :=
  match app.selected with
  | some i =>
    match app.items.get? i with
    | some item =>
      if item.is_folder then
        AppLogic.refresh {app with
          history := app.current_guid :: app.history,
          current_guid := some item.id,
          selected := none}
      else (app, [])
    | none => (app, [])
  | none => (app, [])

/-- `AppLogic::go_back` (src/main.rs lines 153-161). -/
def AppLogic.go_back (app : AppLogic) : AppLogic × List Spawn :=
  match app.history with
  | prev :: rest =>
    AppLogic.refresh {app with current_guid := prev, history := rest, selected := none}
  | [] => ({app with status_msg := "Already at root."}, [])

/-- `AppLogic::download` (src/main.rs lines 163-171). -/
def AppLogic.download (app : AppLogic) : AppLogic :=
  match app.selected with
  | some i =>
    match app.items.get? i with
    | some item =>
      {app with input_mode := InputMode.Downloading,
                input_buffer := "",
                status_msg := "Enter download path for " ++ item.visible_name ++ ":"}
    | none => app
  | none => app

/-- `AppLogic::confirm_download` (src/main.rs lines 179-210). -/
def AppLogic.confirm_download (app : AppLogic) (home : Option String) :
    AppLogic × List Spawn :=
  let raw_path := rust_trim app.input_buffer
  if raw_path = "" then ({app with status_msg := "Path cannot be empty."}, [])
  else
    let path_str := expand_path home raw_path
    match app.selected with
    | some i =>
      match app.items.get? i with
      | some item =>
        ({app with input_mode := InputMode.Normal,
                   status_msg := "Downloading " ++ item.visible_name ++ " to " ++ path_str ++ "..."},
         [Spawn.downloadTask item path_str])
      | none => (app, [])
    | none => (app, [])

/-- `AppLogic::start_upload` (src/main.rs lines 212-216). -/
def AppLogic.start_upload (app : AppLogic) : AppLogic :=
  {app with input_mode := InputMode.Uploading,
            input_buffer := "",
            status_msg := "Enter file path to upload:"}

/-- `AppLogic::confirm_upload` (src/main.rs lines 224-263); the spawned
background sequence is recorded as `Spawn.uploadSeq` with the captured
folder identifier and path. -/
def AppLogic.confirm_upload (app : AppLogic) (home : Option String) (fs : LocalFs) :
    AppLogic × List Spawn :=
  let raw_path := rust_trim app.input_buffer
  if raw_path = "" then ({app with status_msg := "Path cannot be empty."}, [])
  else
    let path_str := expand_path home raw_path
    if !(fs.existsAt path_str) then ({app with status_msg := "File does not exist."}, [])
    else
      ({app with input_mode := InputMode.Normal,
                 status_msg := "Uploading " ++ path_str ++ "..."},
       [Spawn.uploadSeq app.current_guid path_str])

/-- The completion-message branch of `run_app` (src/main.rs lines 487-505):
`DocumentsFetched` replaces `items` unconditionally, `UploadComplete`
triggers a refresh. -/
def handleMessage (app : AppLogic) : AppMessage → AppLogic × List Spawn
| AppMessage.DocumentsFetched items =>
    ({app with items := items,
               status_msg := "Loaded " ++ toString items.length ++ " items."}, [])
| AppMessage.DownloadComplete name path =>
    ({app with status_msg := "Downloaded " ++ name ++ " to " ++ path ++ "."}, [])
| AppMessage.UploadComplete name =>
    AppLogic.refresh {app with status_msg := "Uploaded " ++ name ++ ". Refreshing..."}
| AppMessage.Error e =>
    ({app with status_msg := "Error: " ++ e}, [])

/-- Message sent by the task spawned in `AppLogic::refresh`
(src/main.rs lines 128-137), given the listing outcome. -/
def fetch_task (listResult : Except String (List Item)) : AppMessage :=
  match listResult with
  | Except.ok items => AppMessage.DocumentsFetched items
  | Except.error e => AppMessage.Error ("Error: " ++ e)

/-- Calls made through the transport adapter by a background task. -/
inductive TransportCall
| listCall (guid : Option String)
| uploadCall (file_path : String)
deriving DecidableEq

/-- The background sequence spawned by `confirm_upload`
(src/main.rs lines 246-262): pre-flight listing, then — only if the
pre-flight succeeded — the upload. Returns the messages it sends and the
transport calls it performs, given the two operation outcomes. -/
def upload_task (listResult : Except String (List Item))
    (uploadResult : Except String Unit) (guid : Option String) (file_path : String) :
    List AppMessage × List TransportCall :=
  match listResult with
  | Except.error e =>
      ([AppMessage.Error ("Upload pre-check failed: " ++ e)],
       [TransportCall.listCall guid])
  | Except.ok _ =>
    match uploadResult with
    | Except.ok _ =>
        ([AppMessage.UploadComplete file_path],
         [TransportCall.listCall guid, TransportCall.uploadCall file_path])
    | Except.error e =>
        ([AppMessage.Error ("Upload failed: " ++ e)],
         [TransportCall.listCall guid, TransportCall.uploadCall file_path])

/-- A folder entry used in the interleaving scenarios. -/
def folderB : Item := ⟨"b", "B", "CollectionType"⟩

/-- A document entry used in the interleaving scenarios. -/
def docX : Item := ⟨"x", "X", "DocumentType"⟩

/-- Another document entry used in the interleaving scenarios. -/
def docY : Item := ⟨"y", "Y", "DocumentType"⟩

/-- C1 scenario, step 1: the startup listing of the root arrives. -/
def c1_s1 : AppLogic := (handleMessage AppLogic.new (AppMessage.DocumentsFetched [folderB])).1

/-- C1 scenario, step 2: the user selects the folder entry. -/
def c1_s2 : AppLogic := c1_s1.next

/-- C1 scenario, step 3: the user presses `r`; a listing task for the root
(folder A = `none`) is spawned. -/
def c1_r : AppLogic × List Spawn := c1_s2.refresh

/-- C1 scenario, step 4: before that task responds, the user enters folder
"b" (folder B); a second listing task for "b" is spawned. -/
def c1_e : AppLogic × List Spawn := c1_r.1.enter

/-- C1 scenario, step 5: folder "b"'s listing arrives and is applied. -/
def c1_s5 : AppLogic := (handleMessage c1_e.1 (fetch_task (Except.ok [docY]))).1

/-- C1 scenario, step 6: the stale root listing arrives and is applied. -/
def c1_s6 : AppLogic := (handleMessage c1_s5 (fetch_task (Except.ok [folderB, docX]))).1

/-- C2 scenario: two items listed, cursor moved to index 1, manual refresh,
then the new one-item listing arrives. -/
def c2_s2 : AppLogic :=
  ((handleMessage AppLogic.new (AppMessage.DocumentsFetched [docX, docY])).1).next.next

/-- C2 scenario final state. -/
def c2_s4 : AppLogic :=
  (handleMessage (c2_s2.refresh).1 (AppMessage.DocumentsFetched [docX])).1

/-- C6 counterexample state: awaiting an upload path, buffer "/d". -/
def c6_app : AppLogic :=
  {AppLogic.new with input_mode := InputMode.Uploading, input_buffer := "/d"}

/-- C6 counterexample filesystem: "/d" exists as a directory, not a file. -/
def c6_fs : LocalFs := ⟨[], ["/d"]⟩

/-- Iterated `AppLogic::next` (repeated `j`/down keypresses). -/
def nextN (app : AppLogic) : Nat → AppLogic
| 0 => app
| n + 1 => (nextN app n).next

/-- One step of a navigation replay: `enterF items sel` stands for "the
listing `items` for the current folder arrives, the user moves the cursor
to `sel` and presses Enter"; `back` is a go-back keypress. -/
inductive NavOp
| enterF (items : List Item) (sel : Nat)
| back

/-- An `enterF` op is an "enter on a selected folder entry" when the
selected index holds a folder. -/
def NavOp.ok : NavOp → Prop
| NavOp.enterF items sel => ∃ it, items.get? sel = some it ∧ it.is_folder = true
| NavOp.back => True

/-- Apply one navigation op through the real transitions of the model. -/
def applyNavOp (app : AppLogic) : NavOp → AppLogic
| NavOp.enterF items sel =>
    ((nextN (handleMessage app (AppMessage.DocumentsFetched items)).1 (sel + 1)).enter).1
| NavOp.back => (app.go_back).1

/-- Replay a sequence of navigation ops from a state. -/
def replayNav (app : AppLogic) (ops : List NavOp) : AppLogic :=
  ops.foldl applyNavOp app

/-- Running count of unmatched enters: +1 per enter, saturating −1 per
go-back (a back at depth zero matches nothing). -/
def navCount : Nat → NavOp → Nat
| n, NavOp.enterF _ _ => n + 1
| n, NavOp.back => n - 1

/-- Number of currently unmatched enters after a whole sequence
(= enters minus matched go-backs). -/
def netOpens (ops : List NavOp) : Nat := ops.foldl navCount 0

/-- Navigation invariant: the current folder is the root exactly when the
history is empty, and within the history (most recent first) only the
bottom entry is the root marker `none`. -/
def navInv (cur : Option String) (h : List (Option String)) : Prop :=
  (cur = none ↔ h = []) ∧ ∀ j x, h.get? j = some x → (x = none ↔ j + 1 = h.length)

/-- Error taxonomy of the download engine: transport failures, local IO
failures, missing destination (`anyhow` "... does not exist." errors), and
exhaustion of the recursion fuel (the model's bound on tree depth, never
reached on the actual finite remote tree). -/
inductive DlErr
| transportE (e : String)
| ioE (e : String)
| notFound (p : String)
| fuelOut
deriving DecidableEq

/-- Local filesystem contents seen by the download engine: sets of
directory and file paths, each a component list under the root. The empty
component list is the root, which always exists. -/
structure FS where
  dirs : List (List String)
  files : List (List String)
deriving DecidableEq

/-- Rust `Path::is_dir` in the model. -/
def FS.isDirAt (fs : FS) (p : List String) : Bool :=
  p.isEmpty || fs.dirs.contains p

/-- Rust `Path::exists` in the model. -/
def FS.existsAt (fs : FS) (p : List String) : Bool :=
  fs.isDirAt p || fs.files.contains p

/-- `tokio::fs::create_dir_all`: records the directory and all its
ancestors. -/
def FS.addDirAll (fs : FS) (p : List String) : FS :=
  {fs with dirs := p.inits ++ fs.dirs}

/-- `tokio::fs::File::create`: records the file. -/
def FS.addFile (fs : FS) (p : List String) : FS :=
  {fs with files := p :: fs.files}

/-- Filesystem growth: everything present in `a` is still present in `b`. -/
def fsLe (a b : FS) : Prop := a.dirs ⊆ b.dirs ∧ a.files ⊆ b.files

/-- Outcome oracles for the engine's fallible calls: the child listing
(`fetch_documents` on `Some id`), the download request (`client.get`), the
body streaming loop, and the two local filesystem operations. -/
structure World where
  listO : String → Except DlErr (List Item)
  sendO : String → Except DlErr Unit
  streamO : String → Except DlErr Unit
  mkdirOk : List String → Bool
  createOk : List String → Bool

/-- Rust `Path::parent` on component lists: `none` at the root. -/
def parentOf : List String → Option (List String)
| [] => none
| l => some l.dropLast

/-- Split a path string at '/' (accumulator holds the current component
reversed). -/
def splitSlashAux (cur : List Char) : List Char → List (List Char)
| [] => [cur.reverse]
| c :: rest =>
  if c = '/' then cur.reverse :: splitSlashAux [] rest
  else splitSlashAux (c :: cur) rest

/-- Components of a path string (empty components dropped, so absolute
paths, trailing separators and duplicate separators normalise away, as
`Path::components` does). -/
def pathComps (s : String) : List String :=
  ((splitSlashAux [] s.data).filter (fun l => l ≠ [])).map String.mk

/-- Render a component list back to an absolute path string (used only in
error payloads). -/
def renderPath (p : List String) : String := "/" ++ String.intercalate "/" p

/-- The parent-directory check of the document branch
(src/main.rs lines 322-326): if the target's parent does not exist,
create it (and its ancestors). -/
def ensureParent (w : World) (fs : FS) (target_path : List String) : Except DlErr FS :=
  match parentOf target_path with
  | some par =>
    if fs.existsAt par then Except.ok fs
    else if w.mkdirOk par then Except.ok (fs.addDirAll par)
    else Except.error (DlErr.ioE "create_dir_all")
  | none => Except.ok fs

/-- `download_recursive` (src/main.rs lines 306-339) over the oracles,
with explicit recursion fuel. A folder: create its directory, list its
children, process them sequentially in listing order, stopping at the
first failure. A document: issue the request, ensure the parent directory
exists, create the file, stream the body (a mid-stream failure leaves the
created file in place). The returned `FS` is the filesystem as left behind,
also on failure (no rollback). -/
def download_recursive (w : World) : Nat → Item → List String → FS →
    Except DlErr (List String) × FS
| 0, _, _, fs => (Except.error DlErr.fuelOut, fs)
| fuel + 1, item, target_path, fs =>
  if item.is_folder then
    if w.mkdirOk target_path then
      let fs1 := fs.addDirAll target_path
      match w.listO item.id with
      | Except.error e => (Except.error e, fs1)
      | Except.ok children =>
        match children.foldl (fun acc child =>
            match acc with
            | Except.error ef => Except.error ef
            | Except.ok fsAcc =>
              match download_recursive w fuel child
                  (target_path ++ [sanitize_filename child.visible_name child.is_folder])
                  fsAcc with
              | (Except.ok _, fs2) => Except.ok fs2
              | (Except.error e, fs2) => Except.error (e, fs2))
          (Except.ok fs1 : Except (DlErr × FS) FS) with
        | Except.ok fs2 => (Except.ok target_path, fs2)
        | Except.error (e, fs2) => (Except.error e, fs2)
    else (Except.error (DlErr.ioE "create_dir_all"), fs)
  else
    match w.sendO item.id with
    | Except.error e => (Except.error e, fs)
    | Except.ok _ =>
      match ensureParent w fs target_path with
      | Except.error e => (Except.error e, fs)
      | Except.ok fsp =>
        if w.createOk target_path then
          let fs2 := fsp.addFile target_path
          match w.streamO item.id with
          | Except.error e => (Except.error e, fs2)
          | Except.ok _ => (Except.ok target_path, fs2)
        else (Except.error (DlErr.ioE "file_create"), fsp)

/-- The sequential child loop of `download_recursive`'s folder branch, as a
standalone fold (the accumulator carries the filesystem, or the first error
together with the filesystem at that point). -/
def downloadChildren (w : World) (fuel : Nat) (target_path : List String)
    (children : List Item) (acc : Except (DlErr × FS) FS) : Except (DlErr × FS) FS :=
  children.foldl (fun acc child =>
    match acc with
    | Except.error ef => Except.error ef
    | Except.ok fsAcc =>
      match download_recursive w fuel child
          (target_path ++ [sanitize_filename child.visible_name child.is_folder])
          fsAcc with
      | (Except.ok _, fs2) => Except.ok fs2
      | (Except.error e, fs2) => Except.error (e, fs2)) acc

/-- `download_selection` (src/main.rs lines 341-366), pure path-resolution
part: decide whether `dest_path` is a directory target, require existence
accordingly, and compute the final path; then the parent of the final path
must exist. -/
def resolve_final_path (fs : FS) (item : Item) (dest_path : String) :
    Except DlErr (List String) :=
  let output_path := pathComps dest_path
  let item_name := sanitize_filename item.visible_name item.is_folder
  let is_dir_target := ends_with dest_path "/" || fs.isDirAt output_path
  match (if is_dir_target then
           if !(fs.existsAt output_path) then
             Except.error (DlErr.notFound dest_path)
           else Except.ok (output_path ++ [item_name])
         else (Except.ok output_path : Except DlErr (List String))) with
  | Except.error e => Except.error e
  | Except.ok final_path =>
    match parentOf final_path with
    | some par =>
      if !(fs.existsAt par) then Except.error (DlErr.notFound (renderPath par))
      else Except.ok final_path
    | none => Except.ok final_path

/-- `download_selection` (src/main.rs lines 341-366): resolve the final
path, then run the recursive engine on it. -/
def download_selection (w : World) (fuel : Nat) (fs : FS) (item : Item)
    (dest_path : String) : Except DlErr (List String) × FS :=
  match resolve_final_path fs item dest_path with
  | Except.error e => (Except.error e, fs)
  | Except.ok final_path => download_recursive w fuel item final_path fs

/-- Filesystem left behind by a child fold step, also on failure. -/
def accFS : Except (DlErr × FS) FS → FS
| Except.ok f => f
| Except.error p => p.2

/-- The folder downloaded in the C5 witness run. -/
def folderF : Item := ⟨"F", "F", "CollectionType"⟩

/-- First (succeeding) child of the C5 witness run. -/
def docA : Item := ⟨"a", "A", "DocumentType"⟩

/-- Second (failing) child of the C5 witness run. -/
def docBad : Item := ⟨"bad", "Bad", "DocumentType"⟩

/-- Oracles of the C5 witness run: listing "F" yields the two children and
downloading "bad" fails with a transport error. -/
def c5_w : World :=
  { listO := fun id => if id = "F" then Except.ok [docA, docBad] else Except.ok []
  , sendO := fun id =>
      if id = "bad" then Except.error (DlErr.transportE "boom") else Except.ok ()
  , streamO := fun _ => Except.ok ()
  , mkdirOk := fun _ => true
  , createOk := fun _ => true }

/-- Filesystem after the successful first sibling of the C5 witness run. -/
def c5_fsPre : FS := ⟨[[], ["dl"]], [["dl", "A.pdf"]]⟩

/-- The entry of the spec's path-resolution example. -/
def myReportItem : Item := ⟨"r1", "My Report", "DocumentType"⟩

/-- Filesystem for the example in which /tmp/out exists. -/
def c3_fs_ok : FS := ⟨[["tmp"], ["tmp", "out"]], []⟩

/-- Filesystem for the example in which /tmp/out does not exist. -/
def c3_fs_missing : FS := ⟨[["tmp"]], []⟩

/-- A trivial oracle world for path-resolution statements. -/
def c3_w : World :=
  { listO := fun _ => Except.ok []
  , sendO := fun _ => Except.ok ()
  , streamO := fun _ => Except.ok ()
  , mkdirOk := fun _ => true
  , createOk := fun _ => true }

lemma sanitize_cond (c : Char) :
    (!c.isAlphanum && c != '.' && c != '-' && c != '_') = !(keepChar c) := by
  simp [keepChar, Bool.not_or, bne, Bool.and_assoc]

lemma replaceChar_eq (c : Char) :
    replaceChar c = if keepChar c then c else '_' := by
  unfold replaceChar
  rw [sanitize_cond]
  cases h : keepChar c <;> simp [h]

lemma keepChar_underscore : keepChar '_' = true := by decide

lemma replaceChar_of_keep {c : Char} (h : keepChar c = true) : replaceChar c = c := by
  simp [replaceChar_eq, h]

lemma keep_replaceChar (c : Char) : keepChar (replaceChar c) = true := by
  rw [replaceChar_eq]
  cases h : keepChar c
  · simpa using keepChar_underscore
  · simpa using h

lemma replaceChar_idem (c : Char) : replaceChar (replaceChar c) = replaceChar c :=
  replaceChar_of_keep (keep_replaceChar c)

lemma sanChars_idem (l : List Char) : sanChars (sanChars l) = sanChars l := by
  unfold sanChars
  rw [List.map_map]
  exact List.map_congr_left fun a _ => replaceChar_idem a

lemma sanChars_append (a b : List Char) :
    sanChars (a ++ b) = sanChars a ++ sanChars b := by
  simp [sanChars]

lemma sanChars_fixed {l : List Char} (h : ∀ c ∈ l, keepChar c = true) :
    sanChars l = l := by
  unfold sanChars
  rw [List.map_congr_left fun a ha => replaceChar_of_keep (h a ha)]
  exact List.map_id l

lemma mk_data (s : String) : String.mk s.data = s := rfl

lemma str_data_append (a b : String) : (a ++ b).data = a.data ++ b.data := by
  cases a
  cases b
  rfl

lemma ends_with_iff {s suf : String} : ends_with s suf = true ↔ suf.data <:+ s.data := by
  unfold ends_with
  exact List.isSuffixOf_iff_suffix

lemma suffix_append_right {α : Type} {s u : List α} (t : List α) (h : s <:+ u) :
    s ++ t <:+ u ++ t := by
  obtain ⟨p, hp⟩ := h
  exact ⟨p, by rw [← hp, List.append_assoc]⟩

lemma suffix_cancel_right {α : Type} {s u t : List α} (h : s ++ t <:+ u ++ t) :
    s <:+ u := by
  obtain ⟨p, hp⟩ := h
  refine ⟨p, ?_⟩
  have h2 : (p ++ s) ++ t = u ++ t := by
    rw [List.append_assoc]
    exact hp
  exact List.append_cancel_right h2

lemma rigid_eq : ∀ (b m : List Char), (∀ t ∈ m, keepChar t = true ∧ t ≠ '_') →
    sanChars b = m → b = m
  | [], m, _, h => by simpa [sanChars] using h
  | c :: cs, m, hm, h => by
    cases m with
    | nil => simp [sanChars] at h
    | cons t ts =>
      simp only [sanChars, List.map_cons, List.cons.injEq] at h
      obtain ⟨h1, h2⟩ := h
      obtain ⟨hk, hu⟩ := hm t (by simp)
      have hc : c = t := by
        rw [replaceChar_eq] at h1
        cases hkc : keepChar c
        · rw [hkc] at h1
          simp at h1
          exact absurd h1.symm hu
        · rw [hkc] at h1
          simpa using h1
      subst hc
      have hrest : cs = ts :=
        rigid_eq cs ts (fun t ht => hm t (by simp [ht])) h2
      rw [hrest]

lemma rigid_suffix_pullback {l m : List Char}
    (hm : ∀ t ∈ m, keepChar t = true ∧ t ≠ '_')
    (h : m <:+ sanChars l) : m <:+ l := by
  obtain ⟨p, hp⟩ := h
  have hdrop : sanChars (l.drop p.length) = m := by
    have h2 : (sanChars l).drop p.length = m := by
      rw [← hp]
      exact List.drop_left' rfl
    rw [← h2]
    simp [sanChars]
  have hb : l.drop p.length = m := rigid_eq _ _ hm hdrop
  exact ⟨l.take p.length, by rw [← hb]; exact List.take_append_drop _ _⟩

lemma pdf_chars : ∀ t ∈ (".pdf".data), keepChar t = true ∧ t ≠ '_' := by decide

lemma pdfpdf_chars : ∀ t ∈ (".pdf.pdf".data), keepChar t = true ∧ t ≠ '_' := by decide

lemma sanChars_pdf : sanChars (".pdf".data) = ".pdf".data := by decide

lemma sanChars_pdfpdf : sanChars (".pdf.pdf".data) = ".pdf.pdf".data := by decide

lemma pdfpdf_split : (".pdf.pdf".data) = (".pdf".data) ++ (".pdf".data) := by decide

lemma sanitize_doc_eq (name : String) :
    sanitize_filename name false =
      if ends_with (String.mk (sanChars name.data)) ".pdf" = true
      then String.mk (sanChars name.data)
      else String.mk (sanChars name.data) ++ ".pdf" := by
  unfold sanitize_filename
  cases h : ends_with (String.mk (sanChars name.data)) ".pdf" <;> simp [h]

lemma sanitize_folder_eq (name : String) :
    sanitize_filename name true = String.mk (sanChars name.data) := by
  simp [sanitize_filename]

lemma ends_with_append_pdf (s : String) : ends_with (s ++ ".pdf") ".pdf" = true := by
  rw [ends_with_iff, str_data_append]
  exact List.suffix_append _ _

lemma sanitize_doc_ends_pdf (name : String) :
    ends_with (sanitize_filename name false) ".pdf" = true := by
  rw [sanitize_doc_eq]
  cases h : ends_with (String.mk (sanChars name.data)) ".pdf"
  · rw [if_neg (by simp)]
    exact ends_with_append_pdf _
  · rw [if_pos rfl]
    exact h

lemma data_sanitize_fixed (name : String) (f : Bool) :
    sanChars (sanitize_filename name f).data = (sanitize_filename name f).data := by
  cases f
  · rw [sanitize_doc_eq]
    cases h : ends_with (String.mk (sanChars name.data)) ".pdf"
    · rw [if_neg (by simp)]
      rw [str_data_append]
      show sanChars (sanChars name.data ++ (".pdf").data) = _
      rw [sanChars_append, sanChars_idem, sanChars_pdf]
    · rw [if_pos rfl]
      exact sanChars_idem _
  · rw [sanitize_folder_eq]
    exact sanChars_idem _

lemma sanitize_eq_self {s : String} (hfix : sanChars s.data = s.data)
    {f : Bool} (hpdf : f = false → ends_with s ".pdf" = true) :
    sanitize_filename s f = s := by
  cases f
  · simp [sanitize_filename, hfix, hpdf rfl, mk_data]
  · simp [sanitize_filename, hfix, mk_data]

lemma sanitize_idem (name : String) (f : Bool) :
    sanitize_filename (sanitize_filename name f) f = sanitize_filename name f := by
  refine sanitize_eq_self (data_sanitize_fixed name f) ?_
  intro hf
  subst hf
  exact sanitize_doc_ends_pdf name

lemma sanitize_pdfpdf_iff (name : String) :
    ends_with (sanitize_filename name false) ".pdf.pdf" = true ↔
      ends_with name ".pdf.pdf" = true := by
  rw [ends_with_iff, ends_with_iff]
  constructor
  · intro h
    rw [sanitize_doc_eq] at h
    by_cases hp : ends_with (String.mk (sanChars name.data)) ".pdf" = true
    · rw [if_pos hp] at h
      exact rigid_suffix_pullback pdfpdf_chars h
    · rw [if_neg hp] at h
      exfalso
      apply hp
      rw [ends_with_iff]
      rw [str_data_append] at h
      rw [pdfpdf_split] at h
      exact suffix_cancel_right h
  · intro h
    have hmap : (".pdf.pdf".data) <:+ sanChars name.data := by
      obtain ⟨p, hp⟩ := h
      refine ⟨sanChars p, ?_⟩
      rw [← sanChars_pdfpdf, ← sanChars_append, hp]
    have hpdf : ends_with (String.mk (sanChars name.data)) ".pdf" = true := by
      rw [ends_with_iff]
      exact List.IsSuffix.trans (by decide) hmap
    rw [sanitize_doc_eq, if_pos hpdf]
    exact hmap

/-- C4 counterexample: the document name "a.pdf.pdf" is already
filesystem-safe, the sanitizer keeps it unchanged, and the result ends in
".pdf.pdf" — refuting "for every document input the sanitized name ends in
\".pdf\" exactly once, never \".pdf.pdf\"". -/
theorem C4_counterexample :
    sanitize_filename "a.pdf.pdf" false = "a.pdf.pdf" ∧
    ends_with (sanitize_filename "a.pdf.pdf" false) ".pdf.pdf" = true := by
  constructor <;> decide

/-- C4 (amended): sanitization replaces every non-kept character by '_'
(built into `sanitize_filename`), is idempotent for either flag, and for
every document input the result ends in ".pdf"; the result ends in
".pdf.pdf" exactly when the raw input already did — the sanitizer never
introduces a duplicated ".pdf" suffix. -/
theorem C4_sanitize_idempotent_pdf :
    (∀ (name : String) (f : Bool),
        sanitize_filename (sanitize_filename name f) f = sanitize_filename name f) ∧
    (∀ name : String, ends_with (sanitize_filename name false) ".pdf" = true) ∧
    (∀ name : String,
        ends_with (sanitize_filename name false) ".pdf.pdf" = true ↔
          ends_with name ".pdf.pdf" = true) :=
  ⟨sanitize_idem, sanitize_doc_ends_pdf, sanitize_pdfpdf_iff⟩

/-- C1: the code does not implement stale-listing discard. In the modelled
interleaving a listing for the root (folder A = `none`) is requested, the
user then enters folder "b" (B ≠ A), folder "b"'s listing is shown, and the
late root response still replaces `entries` — `AppMessage::DocumentsFetched`
carries no folder tag and `run_app` applies it unconditionally. -/
theorem C1_stale_listing_overwrites :
    c1_r.2 = [Spawn.fetch none] ∧
    c1_e.2 = [Spawn.fetch (some "b")] ∧
    c1_e.1.current_guid = some "b" ∧
    c1_s5.items = [docY] ∧
    c1_s5.current_guid = some "b" ∧
    c1_s6.current_guid = some "b" ∧
    c1_s6.items = [folderB, docX] ∧
    c1_s6.items ≠ [docY] := by
  refine ⟨rfl, rfl, rfl, rfl, rfl, rfl, rfl, ?_⟩
  decide

/-- C2: the selection invariant `selection = Some i → i < len(entries)` is
violated in a reachable state: after selecting index 1 of a two-item
listing and a manual refresh, the one-item completion replaces `entries`
without clearing the selection. -/
theorem C2_selection_out_of_bounds :
    c2_s2.selected = some 1 ∧
    c2_s2.items.length = 2 ∧
    c2_s4.selected = some 1 ∧
    c2_s4.items.length = 1 ∧
    ¬ (1 < c2_s4.items.length) := by
  refine ⟨rfl, rfl, rfl, rfl, ?_⟩
  decide

/-- C6 counterexample: "/d" does not name an existing local file (it is a
directory), yet `confirm_upload` spawns the background upload sequence and
switches to Normal mode — the code only tests `Path::exists`, so the claim
as stated ("does not name an existing local file ⇒ rejected") fails. -/
theorem C6_counterexample :
    c6_fs.isFileAt (expand_path none (rust_trim c6_app.input_buffer)) = false ∧
    c6_fs.existsAt (expand_path none (rust_trim c6_app.input_buffer)) = true ∧
    (c6_app.confirm_upload none c6_fs).2 = [Spawn.uploadSeq none "/d"] ∧
    (c6_app.confirm_upload none c6_fs).1.input_mode = InputMode.Normal := by
  refine ⟨?_, ?_, ?_, ?_⟩ <;> decide

/-- C6 (amended): for every input buffer whose expanded, trimmed path does
not exist on disk (neither file nor directory) — including a buffer that is
empty after trimming, rejected at the empty-path check — `confirm_upload`
spawns nothing (zero transport calls) and changes only `status_msg`; in
particular the mode stays as it was (`AwaitingUploadPath`). -/
theorem C6_nonexistent_upload_rejected (app : AppLogic) (home : Option String)
    (fs : LocalFs) :
    (rust_trim app.input_buffer = "" →
      app.confirm_upload home fs =
        ({app with status_msg := "Path cannot be empty."}, [])) ∧
    (rust_trim app.input_buffer ≠ "" →
      fs.existsAt (expand_path home (rust_trim app.input_buffer)) = false →
      app.confirm_upload home fs =
        ({app with status_msg := "File does not exist."}, [])) := by
  constructor
  · intro h
    unfold AppLogic.confirm_upload
    simp [h]
  · intro hne hex
    unfold AppLogic.confirm_upload
    simp [hne, hex]

/-- C6 witness: concrete runs of both rejection branches of the amended
theorem — a whitespace-only buffer and a non-existent path. -/
theorem C6_nonexistent_upload_rejected_witness :
    (AppLogic.confirm_upload
        {AppLogic.new with input_mode := InputMode.Uploading, input_buffer := "  "}
        none ⟨[], []⟩ =
      ({ {AppLogic.new with input_mode := InputMode.Uploading, input_buffer := "  "}
          with status_msg := "Path cannot be empty."}, [])) ∧
    (AppLogic.confirm_upload
        {AppLogic.new with input_mode := InputMode.Uploading, input_buffer := "/nope"}
        none ⟨[], []⟩ =
      ({ {AppLogic.new with input_mode := InputMode.Uploading, input_buffer := "/nope"}
          with status_msg := "File does not exist."}, [])) :=
  ⟨(C6_nonexistent_upload_rejected _ none ⟨[], []⟩).1 (by decide),
   (C6_nonexistent_upload_rejected _ none ⟨[], []⟩).2 (by decide) (by decide)⟩

/-- C8: `move-selection` is total — on an empty listing both directions are
identity; on a non-empty listing the cursor wraps from the last index to 0
going forward and from 0 to the last index going backward, and otherwise
moves by exactly one. -/
theorem C8_move_selection_total (app : AppLogic) :
    (app.items = [] → app.next = app ∧ app.previous = app) ∧
    (∀ i, app.selected = some i → i + 1 = app.items.length →
        app.next = {app with selected := some 0}) ∧
    (∀ i, app.selected = some i → i + 1 < app.items.length →
        app.next = {app with selected := some (i + 1)}) ∧
    (app.items ≠ [] → app.selected = some 0 →
        app.previous = {app with selected := some (app.items.length - 1)}) ∧
    (∀ i, app.items ≠ [] → app.selected = some i → 0 < i →
        app.previous = {app with selected := some (i - 1)}) := by
  have hne_of_len : ∀ i, i + 1 ≤ app.items.length → app.items.isEmpty = false := by
    intro i hl
    cases h : app.items
    · rw [h] at hl
      simp at hl
    · simp [h]
  have hne_of_ne : app.items ≠ [] → app.items.isEmpty = false := by
    intro h
    cases hi : app.items
    · exact absurd hi h
    · simp [hi]
  refine ⟨?_, ?_, ?_, ?_, ?_⟩
  · intro h
    constructor <;> simp [AppLogic.next, AppLogic.previous, h]
  · intro i hs hl
    simp only [AppLogic.next, hne_of_len i (le_of_eq hl), Bool.false_eq_true, if_false, hs]
    rw [if_pos (by omega)]
  · intro i hs hl
    simp only [AppLogic.next, hne_of_len i (le_of_lt hl), Bool.false_eq_true, if_false, hs]
    rw [if_neg (by omega)]
  · intro hne hs
    simp only [AppLogic.previous, hne_of_ne hne, Bool.false_eq_true, if_false, hs]
    simp
  · intro i hne hs hi
    simp only [AppLogic.previous, hne_of_ne hne, Bool.false_eq_true, if_false, hs]
    rw [if_neg (by omega)]

/-- C8 witness: wrapping forward from the last index of a two-item listing
selects index 0. -/
theorem C8_move_selection_total_witness :
    ({AppLogic.new with items := [docX, docY], selected := some 1} : AppLogic).next =
      {({AppLogic.new with items := [docX, docY], selected := some 1} : AppLogic) with
        selected := some 0} :=
  (C8_move_selection_total _).2.1 1 rfl (by decide)

/-- C9 counterexample: when the pre-flight listing fails, the spawned
sequence surfaces the pre-check error and performs no upload call at all —
refuting "a pre-flight failure only affects user feedback, not whether the
upload is performed". -/
theorem C9_counterexample :
    upload_task (Except.error "boom") (Except.ok ()) none "/f" =
      ([AppMessage.Error "Upload pre-check failed: boom"], [TransportCall.listCall none]) ∧
    TransportCall.uploadCall "/f" ∉ (upload_task (Except.error "boom") (Except.ok ()) none "/f").2 := by
  refine ⟨rfl, ?_⟩
  decide

/-- C9 (amended): `confirm_upload` on an existing path spawns the
background sequence; that sequence first re-lists the captured folder and,
if the pre-flight fails, surfaces the error and aborts without uploading;
if the pre-flight succeeds, the upload is performed regardless of the
listing's content (which is discarded), and a successful upload makes the
event loop trigger an automatic refresh. -/
theorem C9_upload_preflight (app : AppLogic) (home : Option String) (fs : LocalFs)
    (guid : Option String) (file_path : String) (items : List Item) (e : String)
    (ur : Except String Unit) :
    (rust_trim app.input_buffer ≠ "" →
      fs.existsAt (expand_path home (rust_trim app.input_buffer)) = true →
      app.confirm_upload home fs =
        ({app with input_mode := InputMode.Normal,
                   status_msg := "Uploading " ++ expand_path home (rust_trim app.input_buffer) ++ "..."},
         [Spawn.uploadSeq app.current_guid (expand_path home (rust_trim app.input_buffer))])) ∧
    (upload_task (Except.error e) ur guid file_path =
      ([AppMessage.Error ("Upload pre-check failed: " ++ e)], [TransportCall.listCall guid])) ∧
    ((upload_task (Except.ok items) ur guid file_path).2 =
      [TransportCall.listCall guid, TransportCall.uploadCall file_path]) ∧
    ((upload_task (Except.ok items) (Except.ok ()) guid file_path).1 =
      [AppMessage.UploadComplete file_path]) ∧
    ((upload_task (Except.ok items) (Except.error e) guid file_path).1 =
      [AppMessage.Error ("Upload failed: " ++ e)]) ∧
    (handleMessage app (AppMessage.UploadComplete file_path) =
      ({app with status_msg := "Loading..."}, [Spawn.fetch app.current_guid])) := by
  refine ⟨?_, rfl, ?_, rfl, rfl, rfl⟩
  · intro hne hex
    unfold AppLogic.confirm_upload
    simp [hne, hex]
  · cases ur <;> rfl

/-- C9 witness: a concrete upload confirmation with an existing file. -/
theorem C9_upload_preflight_witness :
    AppLogic.confirm_upload
        {AppLogic.new with input_mode := InputMode.Uploading, input_buffer := "/f"}
        none ⟨["/f"], []⟩ =
      ({ {AppLogic.new with input_mode := InputMode.Uploading, input_buffer := "/f"}
          with input_mode := InputMode.Normal, status_msg := "Uploading " ++ expand_path none (rust_trim "/f") ++ "..."},
       [Spawn.uploadSeq none (expand_path none (rust_trim "/f"))]) :=
  (C9_upload_preflight _ none ⟨["/f"], []⟩ none "/f" [] "e" (Except.ok ())).1
    (by decide) (by decide)

/-- C10: confirming a download with a whitespace-only input buffer spawns
nothing and changes only the status message — the mode (and every other
field) is untouched. -/
theorem C10_empty_download_path (app : AppLogic) (home : Option String)
    (h : rust_trim app.input_buffer = "") :
    app.confirm_download home = ({app with status_msg := "Path cannot be empty."}, []) := by
  unfold AppLogic.confirm_download
  simp [h]

/-- C10 witness: a whitespace-only buffer in download mode. -/
theorem C10_empty_download_path_witness :
    AppLogic.confirm_download
        {AppLogic.new with input_mode := InputMode.Downloading, input_buffer := "  "}
        none =
      ({ {AppLogic.new with input_mode := InputMode.Downloading, input_buffer := "  "}
          with status_msg := "Path cannot be empty."}, []) :=
  C10_empty_download_path _ none (by decide)

lemma navInv_nil : navInv none [] := by
  constructor
  · simp
  · intro j x hj
    simp at hj

lemma navInv_push {cur : Option String} {h : List (Option String)}
    (inv : navInv cur h) (id : String) : navInv (some id) (cur :: h) := by
  obtain ⟨h1, h2⟩ := inv
  constructor
  · simp
  · intro j x hj
    cases j with
    | zero =>
      simp only [List.get?] at hj
      cases hj
      rw [List.length_cons, h1, ← List.length_eq_zero]
      omega
    | succ j =>
      simp only [List.get?] at hj
      rw [List.length_cons, h2 j x hj]
      omega

lemma navInv_pop {x cur : Option String} {rest : List (Option String)}
    (inv : navInv cur (x :: rest)) : navInv x rest := by
  obtain ⟨h1, h2⟩ := inv
  constructor
  · have h0 := h2 0 x (by simp)
    rw [List.length_cons] at h0
    rw [h0, ← List.length_eq_zero]
    omega
  · intro j y hj
    have hs := h2 (j + 1) y (by simpa using hj)
    rw [List.length_cons] at hs
    rw [hs]
    omega

lemma nextN_eq (app : AppLogic) (h : app.selected = none) :
    ∀ k, k < app.items.length → nextN app (k + 1) = {app with selected := some k} := by
  intro k
  induction k with
  | zero =>
    intro hk
    have hne : app.items.isEmpty = false := by
      cases hi : app.items
      · rw [hi] at hk
        simp at hk
      · simp [hi]
    show (nextN app 0).next = _
    simp only [nextN, AppLogic.next, hne, Bool.false_eq_true, if_false, h]
  | succ k ih =>
    intro hk
    have hne : app.items.isEmpty = false := by
      cases hi : app.items
      · rw [hi] at hk
        simp at hk
      · simp [hi]
    show (nextN app (k + 1)).next = _
    rw [ih (by omega)]
    simp only [AppLogic.next, hne, Bool.false_eq_true, if_false]
    rw [if_neg (by omega)]

lemma applyNavOp_enter (app : AppLogic) (items : List Item) (sel : Nat) (it : Item)
    (hsel : app.selected = none)
    (hit : items.get? sel = some it) (hf : it.is_folder = true) :
    applyNavOp app (NavOp.enterF items sel) =
      {app with items := items,
                selected := none,
                current_guid := some it.id,
                history := app.current_guid :: app.history,
                status_msg := "Loading..."} := by
  show ((nextN (handleMessage app (AppMessage.DocumentsFetched items)).1 (sel + 1)).enter).1 = _
  have hlen : sel < items.length := by
    by_contra hge
    rw [List.get?_eq_none.mpr (by omega)] at hit
    exact Option.noConfusion hit
  have h1 : (handleMessage app (AppMessage.DocumentsFetched items)).1 =
      {app with items := items,
                status_msg := "Loaded " ++ toString items.length ++ " items."} := rfl
  rw [h1]
  rw [nextN_eq
    {app with items := items,
              status_msg := "Loaded " ++ toString items.length ++ " items."}
    (by exact hsel) sel (by exact hlen)]
  simp only [AppLogic.enter, hit, hf, AppLogic.refresh, if_true]

lemma applyNavOp_back_nil (app : AppLogic) (hh : app.history = []) :
    applyNavOp app NavOp.back = {app with status_msg := "Already at root."} := by
  show (app.go_back).1 = _
  unfold AppLogic.go_back
  rw [hh]

lemma applyNavOp_back_cons (app : AppLogic) (x : Option String)
    (rest : List (Option String)) (hh : app.history = x :: rest) :
    applyNavOp app NavOp.back =
      {app with current_guid := x, history := rest, selected := none,
                status_msg := "Loading..."} := by
  show (app.go_back).1 = _
  unfold AppLogic.go_back
  rw [hh]
  rfl

lemma replay_invariant : ∀ (ops : List NavOp) (app : AppLogic),
    (∀ op ∈ ops, op.ok) →
    app.selected = none →
    navInv app.current_guid app.history →
    (replayNav app ops).selected = none ∧
    navInv (replayNav app ops).current_guid (replayNav app ops).history ∧
    (replayNav app ops).history.length = ops.foldl navCount app.history.length
  | [], app, _, hsel, hinv => ⟨hsel, hinv, rfl⟩
  | op :: rest, app, hok, hsel, hinv => by
    have hops : ∀ o ∈ rest, o.ok := fun o ho => hok o (by simp [ho])
    have hstep : replayNav app (op :: rest) = replayNav (applyNavOp app op) rest := rfl
    cases op with
    | enterF items sel =>
      obtain ⟨it, hit, hf⟩ := hok _ (List.mem_cons_self _ _)
      rw [hstep, applyNavOp_enter app items sel it hsel hit hf]
      have hrec := replay_invariant rest
        {app with items := items, selected := none, current_guid := some it.id,
                  history := app.current_guid :: app.history, status_msg := "Loading..."}
        hops rfl (navInv_push hinv it.id)
      refine ⟨hrec.1, hrec.2.1, ?_⟩
      rw [hrec.2.2]
      rfl
    | back =>
      cases hh : app.history with
      | nil =>
        rw [hstep, applyNavOp_back_nil app hh]
        have hrec := replay_invariant rest {app with status_msg := "Already at root."}
          hops hsel hinv
        refine ⟨hrec.1, hrec.2.1, ?_⟩
        rw [hrec.2.2, hh]
        rfl
      | cons x restH =>
        rw [hstep, applyNavOp_back_cons app x restH hh]
        have hrec := replay_invariant rest
          {app with current_guid := x, history := restH, selected := none,
                    status_msg := "Loading..."}
          hops rfl (navInv_pop (hh ▸ hinv))
        refine ⟨hrec.1, hrec.2.1, ?_⟩
        rw [hrec.2.2]
        rfl

/-- C7: replaying any sequence of "enter a selected folder entry" and
"go-back" transitions from the initial state, the current folder is the
root (`none`) exactly when the number of enters minus the number of matched
go-backs is zero, and the history depth equals the number of currently
unmatched enters; a go-back on empty history changes nothing but the status
message and spawns nothing. -/
theorem C7_navigation_replay (ops : List NavOp) (hok : ∀ op ∈ ops, op.ok) :
    ((replayNav AppLogic.new ops).current_guid = none ↔ netOpens ops = 0) ∧
    (replayNav AppLogic.new ops).history.length = netOpens ops ∧
    (∀ app : AppLogic, app.history = [] →
        app.go_back = ({app with status_msg := "Already at root."}, [])) := by
  obtain ⟨hsel, hinv, hlen⟩ := replay_invariant ops AppLogic.new hok rfl navInv_nil
  refine ⟨?_, ?_, ?_⟩
  · rw [hinv.1, ← List.length_eq_zero, hlen]
    exact Iff.rfl
  · rw [hlen]
    rfl
  · intro app h
    unfold AppLogic.go_back
    rw [h]

/-- C7 witness: entering one folder and going back returns to the root. -/
theorem C7_navigation_replay_witness :
    (replayNav AppLogic.new [NavOp.enterF [folderB] 0, NavOp.back]).current_guid = none ↔
      netOpens [NavOp.enterF [folderB] 0, NavOp.back] = 0 :=
  (C7_navigation_replay _ (by
    intro op hop
    simp only [List.mem_cons, List.mem_singleton, List.not_mem_nil, or_false] at hop
    rcases hop with h | h <;> subst h
    · exact ⟨folderB, rfl, rfl⟩
    · trivial)).1

lemma downloadChildren_error (w : World) (fuel : Nat) (t : List String)
    (xs : List Item) (p : DlErr × FS) :
    downloadChildren w fuel t xs (Except.error p) = Except.error p := by
  induction xs with
  | nil => rfl
  | cons c cs ih => exact ih

lemma downloadChildren_append (w : World) (fuel : Nat) (t : List String)
    (xs ys : List Item) (acc : Except (DlErr × FS) FS) :
    downloadChildren w fuel t (xs ++ ys) acc =
      downloadChildren w fuel t ys (downloadChildren w fuel t xs acc) := by
  unfold downloadChildren
  rw [List.foldl_append]

lemma downloadChildren_cons (w : World) (fuel : Nat) (t : List String)
    (c : Item) (cs : List Item) (fsr : FS) :
    downloadChildren w fuel t (c :: cs) (Except.ok fsr) =
      downloadChildren w fuel t cs
        (match download_recursive w fuel c
            (t ++ [sanitize_filename c.visible_name c.is_folder]) fsr with
         | (Except.ok _, fs2) => Except.ok fs2
         | (Except.error e, fs2) => Except.error (e, fs2)) := rfl

lemma download_recursive_folder (w : World) (fuel : Nat) (item : Item)
    (target_path : List String) (fs : FS) (children : List Item)
    (hf : item.is_folder = true) (hmk : w.mkdirOk target_path = true)
    (hl : w.listO item.id = Except.ok children) :
    download_recursive w (fuel + 1) item target_path fs =
      (match downloadChildren w fuel target_path children
          (Except.ok (fs.addDirAll target_path)) with
       | Except.ok fs2 => (Except.ok target_path, fs2)
       | Except.error (e, fs2) => (Except.error e, fs2)) := by
  simp only [download_recursive, hf, if_true, hmk, hl]
  rfl

lemma fsLe_refl (a : FS) : fsLe a a := ⟨fun _ h => h, fun _ h => h⟩

lemma fsLe_trans {a b c : FS} (h1 : fsLe a b) (h2 : fsLe b c) : fsLe a c :=
  ⟨fun _ h => h2.1 (h1.1 h), fun _ h => h2.2 (h1.2 h)⟩

lemma fsLe_addDirAll (fs : FS) (p : List String) : fsLe fs (fs.addDirAll p) :=
  ⟨fun _ h => List.mem_append_right _ h, fun _ h => h⟩

lemma fsLe_addFile (fs : FS) (p : List String) : fsLe fs (fs.addFile p) :=
  ⟨fun _ h => h, fun _ h => List.mem_cons_of_mem _ h⟩

lemma ensureParent_mono {w : World} {fs fsp : FS} {t : List String}
    (h : ensureParent w fs t = Except.ok fsp) : fsLe fs fsp := by
  unfold ensureParent at h
  split at h
  · split at h
    · cases h
      exact fsLe_refl fs
    · split at h
      · cases h
        exact fsLe_addDirAll fs _
      · cases h
  · cases h
    exact fsLe_refl fs

lemma downloadChildren_mono (w : World) (fuel : Nat)
    (ih : ∀ (item : Item) (target : List String) (fs : FS),
        fsLe fs (download_recursive w fuel item target fs).2) :
    ∀ (cs : List Item) (t : List String) (fsr : FS),
      fsLe fsr (accFS (downloadChildren w fuel t cs (Except.ok fsr))) := by
  intro cs
  induction cs with
  | nil =>
    intro t fsr
    exact fsLe_refl fsr
  | cons c cs ihc =>
    intro t fsr
    rw [downloadChildren_cons]
    have hle := ih c (t ++ [sanitize_filename c.visible_name c.is_folder]) fsr
    cases hdr : download_recursive w fuel c
        (t ++ [sanitize_filename c.visible_name c.is_folder]) fsr with
    | mk r fs2 =>
      rw [hdr] at hle
      cases r with
      | ok p => exact fsLe_trans hle (ihc t fs2)
      | error e =>
        rw [downloadChildren_error]
        exact hle

lemma download_recursive_mono (w : World) :
    ∀ (fuel : Nat) (item : Item) (target : List String) (fs : FS),
      fsLe fs (download_recursive w fuel item target fs).2
  | 0, item, target, fs => fsLe_refl fs
  | fuel + 1, item, target, fs => by
    have ih := download_recursive_mono w fuel
    cases hf : item.is_folder
    · -- document branch
      show fsLe fs (download_recursive w (fuel + 1) item target fs).2
      simp only [download_recursive, hf, Bool.false_eq_true, if_false]
      cases hs : w.sendO item.id with
      | error e => exact fsLe_refl fs
      | ok u =>
        cases hp : ensureParent w fs target with
        | error e => exact fsLe_refl fs
        | ok fsp =>
          have h1 : fsLe fs fsp := ensureParent_mono hp
          cases hc : w.createOk target
          · exact h1
          · cases hst : w.streamO item.id with
            | error e => exact fsLe_trans h1 (fsLe_addFile fsp target)
            | ok u2 => exact fsLe_trans h1 (fsLe_addFile fsp target)
    · -- folder branch
      cases hmk : w.mkdirOk target with
      | false =>
        show fsLe fs (download_recursive w (fuel + 1) item target fs).2
        simp only [download_recursive, hf, if_true, hmk, Bool.false_eq_true, if_false]
        exact fsLe_refl fs
      | true =>
        cases hl : w.listO item.id with
        | error e =>
          show fsLe fs (download_recursive w (fuel + 1) item target fs).2
          simp only [download_recursive, hf, if_true, hmk, hl]
          exact fsLe_addDirAll fs target
        | ok children =>
          rw [download_recursive_folder w fuel item target fs children hf hmk hl]
          have h1 := downloadChildren_mono w fuel ih children target (fs.addDirAll target)
          cases hdc : downloadChildren w fuel target children
              (Except.ok (fs.addDirAll target)) with
          | ok fs2 =>
            rw [hdc] at h1
            exact fsLe_trans (fsLe_addDirAll fs target) h1
          | error p =>
            rw [hdc] at h1
            cases p with
            | mk e fs2 => exact fsLe_trans (fsLe_addDirAll fs target) h1

/-- C5: when the recursive download materialises a folder — directory
created, children listed — and the children are processed sequentially in
listing order, the first failing child aborts the whole operation: the
surfaced error and final filesystem are exactly those of the failing child,
everything created for the earlier siblings (all of `fsPre`, which extends
the folder's own directory creation) is still present, and nothing is
rolled back. -/
theorem C5_recursive_download_abort (w : World) (fuel : Nat) (item : Item)
    (target : List String) (fs : FS) (pre : List Item) (c : Item) (post : List Item)
    (e : DlErr) (fsPre fsC : FS)
    (hf : item.is_folder = true)
    (hmk : w.mkdirOk target = true)
    (hl : w.listO item.id = Except.ok (pre ++ c :: post))
    (hpre : downloadChildren w fuel target pre (Except.ok (fs.addDirAll target)) =
      Except.ok fsPre)
    (hc : download_recursive w fuel c
        (target ++ [sanitize_filename c.visible_name c.is_folder]) fsPre =
      (Except.error e, fsC)) :
    download_recursive w (fuel + 1) item target fs = (Except.error e, fsC) ∧
    fsLe (fs.addDirAll target) fsPre ∧ fsLe fsPre fsC := by
  refine ⟨?_, ?_, ?_⟩
  · rw [download_recursive_folder w fuel item target fs (pre ++ c :: post) hf hmk hl]
    rw [downloadChildren_append, hpre, downloadChildren_cons, hc]
    simp only [downloadChildren_error]
  · have h1 := downloadChildren_mono w fuel (download_recursive_mono w fuel) pre target
      (fs.addDirAll target)
    rw [hpre] at h1
    exact h1
  · have h2 := download_recursive_mono w fuel c
      (target ++ [sanitize_filename c.visible_name c.is_folder]) fsPre
    rw [hc] at h2
    exact h2

/-- C5 witness: the concrete run aborts at the failing second child and
keeps the first sibling's file. -/
theorem C5_recursive_download_abort_witness :
    download_recursive c5_w 2 folderF ["dl"] ⟨[], []⟩ =
      (Except.error (DlErr.transportE "boom"), c5_fsPre) ∧
    fsLe (FS.addDirAll ⟨[], []⟩ ["dl"]) c5_fsPre ∧ fsLe c5_fsPre c5_fsPre :=
  C5_recursive_download_abort c5_w 1 folderF ["dl"] ⟨[], []⟩ [docA] docBad []
    (DlErr.transportE "boom") c5_fsPre c5_fsPre rfl rfl rfl (by rfl) (by rfl)

lemma parentOf_ne_nil {l : List String} (h : l ≠ []) :
    parentOf l = some l.dropLast := by
  cases l with
  | nil => exact absurd rfl h
  | cons a t => rfl

lemma parentOf_concat (l : List String) (x : String) :
    parentOf (l ++ [x]) = some l := by
  rw [parentOf_ne_nil (by simp), List.dropLast_concat]

/-- C3: destination handling of `download_selection`. `dest_path` is a
directory target exactly when its literal text ends with the separator or
it exists as a directory; a directory target must exist (else `NotFound`)
and the final path is the destination joined with the entry's safe name;
otherwise the final path is the destination verbatim, failing with
`NotFound` when its parent does not exist; and on the spec's example,
destination "/tmp/out/" with document "My Report" resolves to
/tmp/out/My_Report.pdf when /tmp/out exists and fails when it does not.
A resolution error is the result of the whole operation, with the
filesystem untouched. -/
theorem C3_path_resolution (fs : FS) (item : Item) (dest_path : String)
    (w : World) (fuel : Nat) :
    ((ends_with dest_path "/" || fs.isDirAt (pathComps dest_path)) = true →
       fs.existsAt (pathComps dest_path) = false →
       resolve_final_path fs item dest_path =
         Except.error (DlErr.notFound dest_path)) ∧
    ((ends_with dest_path "/" || fs.isDirAt (pathComps dest_path)) = true →
       fs.existsAt (pathComps dest_path) = true →
       resolve_final_path fs item dest_path =
         Except.ok (pathComps dest_path ++
           [sanitize_filename item.visible_name item.is_folder])) ∧
    ((ends_with dest_path "/" || fs.isDirAt (pathComps dest_path)) = false →
       ∀ par, parentOf (pathComps dest_path) = some par →
         (fs.existsAt par = false →
            resolve_final_path fs item dest_path =
              Except.error (DlErr.notFound (renderPath par))) ∧
         (fs.existsAt par = true →
            resolve_final_path fs item dest_path =
              Except.ok (pathComps dest_path))) ∧
    (resolve_final_path c3_fs_ok myReportItem "/tmp/out/" =
       Except.ok ["tmp", "out", "My_Report.pdf"]) ∧
    (resolve_final_path c3_fs_missing myReportItem "/tmp/out/" =
       Except.error (DlErr.notFound "/tmp/out/")) ∧
    (∀ e, resolve_final_path fs item dest_path = Except.error e →
       download_selection w fuel fs item dest_path = (Except.error e, fs)) := by
  refine ⟨?_, ?_, ?_, rfl, rfl, ?_⟩
  · intro hdt hex
    unfold resolve_final_path
    simp only [hdt, if_true, hex, Bool.not_false, if_pos]
  · intro hdt hex
    unfold resolve_final_path
    simp only [hdt, if_true, hex, Bool.not_true, Bool.false_eq_true, if_false]
    rw [parentOf_concat]
    simp only [hex, Bool.not_true, Bool.false_eq_true, if_false]
  · intro hdt par hpar
    constructor
    · intro hex
      unfold resolve_final_path
      simp only [hdt, Bool.false_eq_true, if_false, hpar, hex, Bool.not_false, if_pos]
    · intro hex
      unfold resolve_final_path
      simp only [hdt, Bool.false_eq_true, if_false, hpar, hex, Bool.not_true,
        Bool.false_eq_true, if_false]
  · intro e h
    unfold download_selection
    rw [h]

/-- C3 witness: concrete instances of the directory-target clauses. -/
theorem C3_path_resolution_witness :
    ((ends_with "/tmp/out/" "/" || FS.isDirAt ⟨[], []⟩ (pathComps "/tmp/out/")) = true ∧
     FS.existsAt ⟨[], []⟩ (pathComps "/tmp/out/") = false ∧
     resolve_final_path ⟨[], []⟩ myReportItem "/tmp/out/" =
       Except.error (DlErr.notFound "/tmp/out/")) ∧
    ((ends_with "/tmp/out/" "/" || c3_fs_ok.isDirAt (pathComps "/tmp/out/")) = true ∧
     c3_fs_ok.existsAt (pathComps "/tmp/out/") = true ∧
     resolve_final_path c3_fs_ok myReportItem "/tmp/out/" =
       Except.ok (pathComps "/tmp/out/" ++
         [sanitize_filename myReportItem.visible_name myReportItem.is_folder])) :=
  ⟨⟨by decide, by decide,
    (C3_path_resolution ⟨[], []⟩ myReportItem "/tmp/out/" c3_w 0).1 (by decide) (by decide)⟩,
   ⟨by decide, by decide,
    (C3_path_resolution c3_fs_ok myReportItem "/tmp/out/" c3_w 0).2.1 (by decide) (by decide)⟩⟩

end RTui
